import Mathlib

/-!
A shallow embedding of the core of `owi2plex.py` (OpenWebif → XMLTV EPG
converter) together with theorems checking the natural-language
specification against it.

Python regular expressions from the source are embedded as explicit
matching functions on `List Char`.  For each pattern of the source the
greedy/backtracking semantics of Python's `re` module were analysed and,
where maximal-munch is equivalent to full backtracking for that
particular pattern, the matcher is written with maximal munch; comments
at each definition record the argument.  Character classes (`\w`, `\s`,
`\d`) are modelled on their ASCII fragment.
-/

namespace Owi2plex

/-- Python `\d` (ASCII fragment): the decimal digits. -/
def isDigitChar (c : Char) : Bool := c.isDigit

/-- Python `\s` (ASCII fragment): space, tab, newline, CR, VT, FF. -/
def isSpaceChar (c : Char) : Bool :=
  c = ' ' || c = '\t' || c = '\n' || c = '\r' || c = '\x0b' || c = '\x0c'

/-- Python `\w` (ASCII fragment): letters, digits and underscore. -/
def isWordChar (c : Char) : Bool := c.isAlphanum || c = '_'

/-- The class `[\w\s]` used by the category regex. -/
def isWordSpace (c : Char) : Bool := isWordChar c || isSpaceChar c

/-- Python `int` on a non-empty digit string. -/
def digitsToNat (ds : List Char) : Nat :=
  ds.foldl (fun a c => 10 * a + (c.toNat - '0'.toNat)) 0

/-!
### `parseSEP` (source lines 188–213)

Primary pattern (`c4_style`, line 195):
`(?:S(?P<S>\d+)(?:\/|\s)*)?(?:Ep|E)\s*(?P<E>\d+)(?:\/(?P<P>\d+))?`

Fallback pattern (`bbc_style`, line 196): `^(?P<E>\d+)\/(?P<P>\d+)\.`

For the primary pattern every quantifier can be resolved by maximal
munch: each starred/greedy class is character-disjoint from what must
follow it (`/`, whitespace and digits never equal `E`; whitespace never
is a digit), so Python's backtracking never produces a different match.
The optional season prefix is tried with the group first and, on
failure, without it — exactly as `re` does.
-/

/-- Match `\s*(?P<E>\d+)(?:\/(?P<P>\d+))?` at the head of `cs`
(the part of the primary pattern after the `Ep`/`E` literal). -/
def matchEDigits (cs : List Char) : Option (Nat × Option Nat) :=
  let cs1 := cs.dropWhile isSpaceChar
  let ds := cs1.takeWhile isDigitChar
  if ds.isEmpty then none
  else
    match cs1.dropWhile isDigitChar with
    | '/' :: r2 =>
        let ps := r2.takeWhile isDigitChar
        -- if no digit follows the slash the whole optional group fails
        if ps.isEmpty then some (digitsToNat ds, none)
        else some (digitsToNat ds, some (digitsToNat ps))
    | _ => some (digitsToNat ds, none)

/-- Match `(?:Ep|E)\s*(?P<E>\d+)(?:\/(?P<P>\d+))?` at the head of `cs`.
When the `Ep` alternative consumes `"Ep"` but the tail fails, `re`
retries the `E` alternative, which then faces the letter `p` where a
digit is required and fails as well — so no fallback is needed. -/
def epTail (cs : List Char) : Option (Nat × Option Nat) :=
  match cs with
  | 'E' :: 'p' :: rest => matchEDigits rest
  | 'E' :: rest => matchEDigits rest
  | _ => none

/-- Match the full primary pattern at the head of `cs`; result is
`(S?, E, P?)`.  The optional `S\d+(?:\/|\s)*` prefix is tried first with
the group present, then without (in the without-case the next character
is the unconsumed `S`, which can never start `Ep|E`, so that branch is
simply `epTail cs`). -/
def c4MatchAt (cs : List Char) : Option (Option Nat × Nat × Option Nat) :=
  let withS : Option (Option Nat × Nat × Option Nat) :=
    match cs with
    | 'S' :: rest =>
        let ds := rest.takeWhile isDigitChar
        if ds.isEmpty then none
        else
          let rest2 := (rest.dropWhile isDigitChar).dropWhile
            (fun c => c = '/' || isSpaceChar c)
          match epTail rest2 with
          | some (e, p) => some (some (digitsToNat ds), e, p)
          | none => none
    | _ => none
  match withS with
  | some r => some r
  | none =>
      match epTail cs with
      | some (e, p) => some (none, e, p)
      | none => none

/-- `re.search` for the primary pattern: leftmost match wins. -/
def c4Search : List Char → Option (Option Nat × Nat × Option Nat)
  | [] => none
  | c :: rest =>
      match c4MatchAt (c :: rest) with
      | some r => some r
      | none => c4Search rest

/-- The anchored fallback pattern `^(?P<E>\d+)\/(?P<P>\d+)\.`;
result is `(E, P)`. -/
def bbcMatch (cs : List Char) : Option (Nat × Nat) :=
  let es := cs.takeWhile isDigitChar
  if es.isEmpty then none
  else
    match cs.dropWhile isDigitChar with
    | '/' :: r2 =>
        let ps := r2.takeWhile isDigitChar
        if ps.isEmpty then none
        else
          match r2.dropWhile isDigitChar with
          | '.' :: _ => some (digitsToNat es, digitsToNat ps)
          | _ => none
    | _ => none

/-- `'{}'.format(int(g) - 1)` for a present capture, `''` for an absent
one (source lines 207–211). -/
def renderDec : Option Nat → String
  | none => ""
  | some n => toString ((n : Int) - 1)

/-- The captures `(S, E, P)` parseSEP works from: the primary pattern if
it matches anywhere, else the fallback pattern (which has no `S` group
and always captures both `E` and `P`). -/
def sepCaptures (text : String) : Option (Option Nat × Nat × Option Nat) :=
  match c4Search text.data with
  | some r => some r
  | none =>
      match bbcMatch text.data with
      | some (e, p) => some (none, e, some p)
      | none => none

/-- `parseSEP` (source lines 188–213): returns the match flag and the
dotted `S.E.P` string.  Mirrors the source: the `S`/`E`/`P` slots start
empty, a chosen match fills the slots whose group names exist in its
group dictionary, and the result is `'{}.{}.{}'.format(S, E, P)`. -/
def parseSEP (text : String) : Bool × String :=
  match c4Search text.data with
  | some (s, e, p) =>
      (true, renderDec s ++ "." ++ renderDec (some e) ++ "." ++ renderDec p)
  | none =>
      match bbcMatch text.data with
      | some (e, p) =>
          -- the fallback pattern has no `S` group, so the S slot stays ""
          (true, "" ++ "." ++ renderDec (some e) ++ "." ++ renderDec (some p))
      | none => (false, "..")

example : parseSEP "Ep3/6" = (true, ".2.5") := by decide
example : parseSEP "3/6." = (true, ".2.5") := by decide
example : parseSEP "no numbers here" = (false, "..") := by decide
example : parseSEP "S2 Ep 3/4" = (true, "1.2.3") := by decide
example : parseSEP "SE5" = (true, ".4.") := by decide
example : parseSEP "E0" = (true, ".-1.") := by decide

/-!
### Data model

An `Event` carries the free-text fields of an OpenWebif EPG event used
by the core.  A `Programme` mirrors the children the source attaches to
a `programme` XML element, in append order: `find('category')` of the
source corresponds to `categories.head?`, an `episode-num` child to an
entry `(system, text)` of `episodeNums`, and a `credits` child to
`credits = some (director, actors)`.
-/

structure Event where
  title : String
  shortdesc : String
  longdesc : String
  picon : String
deriving DecidableEq

structure Programme where
  desc : String
  subtitle : Option String
  title : String
  isNew : Bool
  categories : List String
  episodeNums : List (String × String)
  credits : Option (String × List String)
deriving DecidableEq

/-- A fresh `programme` element with no children yet. -/
def emptyProgramme : Programme :=
  { desc := "", subtitle := none, title := "", isNew := false,
    categories := [], episodeNums := [], credits := none }

/-!
### `addCategories2Programme` (source lines 170–186)

Pattern (line 178): `^\[(?P<C1>[\w\s]+)[\.\s]*(?P<C2>[\w\s]+)*\]`

All three quantified pieces draw from the classes `[\w\s]` and `[\.\s]`,
and `]` belongs to neither, so a successful match consumes exactly the
characters between the opening `[` and the first `]`.  That segment is
matched by `[\w\s]+[\.\s]*([\w\s]+)*` iff it starts with a `[\w\s]`
character and all its dots lie in one `[\.\s]`-only block, which is
exactly what maximal munch recognises; when maximal munch fails no
backtracking assignment exists either.  The first successful
backtracking solution takes every quantifier maximal, so `C1` is the
maximal `[\w\s]` prefix and `C2` the final maximal `[\w\s]` run (absent
when empty). -/
def catMatch (cs : List Char) : Option (String × Option String) :=
  match cs with
  | '[' :: rest =>
      let w1 := rest.takeWhile isWordSpace
      if w1.isEmpty then none
      else
        let r1 := rest.dropWhile isWordSpace
        let r2 := r1.dropWhile (fun c => c = '.' || isSpaceChar c)
        let w2 := r2.takeWhile isWordSpace
        match r2.dropWhile isWordSpace with
        | ']' :: _ =>
            some (String.mk w1, if w2.isEmpty then none else some (String.mk w2))
        | _ => none
  | _ => none

/-- The categories the source appends for a short description: the
values of the match's group dictionary (`C1` then `C2`), keeping only
truthy (non-empty, present) ones — source lines 179–184. -/
def categoriesOf (shortdesc : String) : List String :=
  match catMatch shortdesc.data with
  | none => []
  | some (c1, c2o) =>
      (if c1 = "" then [] else [c1]) ++
      (match c2o with
       | none => []
       | some c2 => if c2 = "" then [] else [c2])

/-- `addCategories2Programme` (source lines 170–186): appends the
extracted categories as `category` children. -/
def addCategories2Programme (p : Programme) (ev : Event) : Programme :=
  { p with categories := p.categories ++ categoriesOf ev.shortdesc }

example : categoriesOf "[Drama.Crime] rest of text" = ["Drama", "Crime"] := by decide
example : categoriesOf "no brackets" = [] := by decide
example : categoriesOf "[A.B.C]" = [] := by decide
example : categoriesOf "[A . B] x" = ["A ", "B"] := by decide
example : categoriesOf "[Mov] x" = ["Mov"] := by decide

/-!
### `addSeriesInfo2Programme` (source lines 216–262)

Air-date pattern (line 224): `(\d{2})[\/|\.|\-](\d{2})[\/|\.|\-](\d{4})`
(the separator classes contain the literal characters `/`, `|`, `.`,
`-`).  The pattern has fixed width, so `re.search` is a plain
leftmost scan.
-/

/-- A separator of the air-date pattern: the class `[\/|\.|\-]`. -/
def isDateSep (c : Char) : Bool := c = '/' || c = '|' || c = '.' || c = '-'

/-- Match the air-date pattern at the head of `cs`; the captures are
returned as digit strings `(DD, MM, YYYY)`. -/
def airDateAt (cs : List Char) : Option (String × String × String) :=
  match cs with
  | d1 :: d2 :: s1 :: m1 :: m2 :: s2 :: y1 :: y2 :: y3 :: y4 :: _ =>
      if isDigitChar d1 && isDigitChar d2 && isDateSep s1 &&
         isDigitChar m1 && isDigitChar m2 && isDateSep s2 &&
         isDigitChar y1 && isDigitChar y2 && isDigitChar y3 && isDigitChar y4
      then some (String.mk [d1, d2], String.mk [m1, m2], String.mk [y1, y2, y3, y4])
      else none
  | _ => none

/-- `re.search` for the air-date pattern. -/
def airDateSearch : List Char → Option (String × String × String)
  | [] => none
  | c :: rest =>
      match airDateAt (c :: rest) with
      | some r => some r
      | none => airDateSearch rest

/-- Append the `original-air-date` episode-num (source lines 246–252),
reformatting the captures as `YYYY-MM-DD`. -/
def addOriginalAirDate (p : Programme) (oad : Option (String × String × String)) :
    Programme :=
  match oad with
  | none => p
  | some (d, m, y) =>
      { p with episodeNums :=
          p.episodeNums ++ [("original-air-date", y ++ "-" ++ m ++ "-" ++ d)] }

/-- `addSeriesInfo2Programme` (source lines 216–262).  The source reads
`existing_category = programme.find('category')` — the first `category`
child — and returns unchanged when its text is in the tuple
`('Movie', 'News')`; with no category child the attribute access raises
`AttributeError`, which is swallowed, leaving `existing_category = None`.
Then an `xmltv_ns` episode-num is appended on a parser match (plus a
`Series` category when there was no category child at all), and an
`original-air-date` episode-num on an air-date match. -/
def addSeriesInfo2Programme (p : Programme) (ev : Event) : Programme :=
  match p.categories.head? with
  | some c =>
      if c = "Movie" || c = "News" then p
      else
        addOriginalAirDate
          (if (parseSEP ev.shortdesc).1 then
            { p with episodeNums := p.episodeNums ++ [("xmltv_ns", (parseSEP ev.shortdesc).2)] }
          else p)
          (airDateSearch ev.shortdesc.data)
  | none =>
      addOriginalAirDate
        (if (parseSEP ev.shortdesc).1 then
          { p with episodeNums := p.episodeNums ++ [("xmltv_ns", (parseSEP ev.shortdesc).2)],
                   categories := p.categories ++ ["Series"] }
        else p)
        (airDateSearch ev.shortdesc.data)

/-!
### `addMovieCredits` (source lines 265–279)

The guard is `existing_category.text in ('Movie')`.  `('Movie')` is the
plain string `"Movie"`, not a one-element tuple, so the test is Python
substring membership of the first category's text in `"Movie"`.
-/

/-- `pat` occurs at the head of `l`. -/
def listStartsWith : List Char → List Char → Bool
  | [], _ => true
  | _ :: _, [] => false
  | p :: ps, c :: cs => p = c && listStartsWith ps cs

/-- Python substring membership `pat in l` (the empty pattern occurs in
every string). -/
def listContains (pat : List Char) : List Char → Bool
  | [] => listStartsWith pat []
  | c :: rest => listStartsWith pat (c :: rest) || listContains pat rest

/-- Python `str.split('\n')` on the character list (no maxsplit):
`""` gives one empty part, a trailing separator a trailing empty part. -/
def splitLines : List Char → List (List Char)
  | [] => [[]]
  | c :: rest =>
      if c = '\n' then [] :: splitLines rest
      else
        match splitLines rest with
        | [] => [[c]]
        | l :: ls => (c :: l) :: ls

/-- Rejoin parts with `'\n'` (used to model the unsplit remainder of a
bounded split). -/
def joinNl : List (List Char) → List Char
  | [] => []
  | [l] => l
  | l :: ls => l ++ '\n' :: joinNl ls

/-- Python `str.split('\n', 2)`: at most two splits, the remainder kept
whole as a third part. -/
def pySplit2 (cs : List Char) : List (List Char) :=
  let parts := splitLines cs
  if parts.length ≤ 3 then parts
  else parts.take 2 ++ [joinNl (parts.drop 2)]

/-- `addMovieCredits` (source lines 265–279).  With no category child
the attribute access raises `AttributeError`, which is swallowed.  The
long description is split into at most three parts; with three parts the
second becomes the director and the third, with its final character
dropped (`cast[2][:-1]`), is split on newlines into the actors. -/
def addMovieCredits (p : Programme) (ev : Event) : Programme :=
  match p.categories.head? with
  | none => p
  | some c =>
      if listContains c.data "Movie".data then
        match pySplit2 ev.longdesc.data with
        | [_, director, blob] =>
            { p with credits := some (String.mk director, (splitLines blob.dropLast).map String.mk) }
        | _ => p
      else p

example :
    pySplit2 "Plot\nJane Doe\nActor A\nActor B\n".data =
      ["Plot".data, "Jane Doe".data, "Actor A\nActor B\n".data] := by decide
example : pySplit2 "Plot\nDir".data = ["Plot".data, "Dir".data] := by decide
example : listContains "Mov".data "Movie".data = true := by decide
example : listContains "".data "Movie".data = true := by decide
example : listContains "Drama".data "Movie".data = false := by decide

/-!
### The per-event fragment of `addEvents2XML` (source lines 306–325)

Subtitle step one (line 311): `re.sub(r'^(\[.+\]\s*)', '', shortdesc)`.
`.` does not cross a newline, so the closing `]` must lie on the first
line; greedy `.+` (at least one character) picks the last such `]` at
index ≥ 1 after the `[`, and `\s*` then eats following whitespace
(newlines included).

Subtitle step two (line 312): `re.sub(r'\s*\([SE]\d+.*\)', '', ·)`,
replacing every non-overlapping occurrence, leftmost first.  Each
occurrence is a whitespace run (possibly empty, possibly with
newlines), `(`, `S` or `E`, digits, then greedy `.*` up to the last `)`
on the same line.

Title step (lines 319–324): if `'New: '` occurs anywhere in the
sanitized title, an empty `new` element is added and *every* occurrence
of `'New: '` is removed (`str.replace` with no count), scanning left to
right without rescanning the replaced text.
-/

/-- Index of the last occurrence of `t` in `l`, if any. -/
def lastIdxOf (t : Char) (l : List Char) : Option Nat :=
  match l.reverse.findIdx? (fun c => c = t) with
  | none => none
  | some j => some (l.length - 1 - j)

/-- `re.sub(r'^(\[.+\]\s*)', '', s)` (source line 311). -/
def stripLeadingBracket (s : String) : String :=
  match s.data with
  | '[' :: rest =>
      let line := rest.takeWhile (fun c => c ≠ '\n')
      match lastIdxOf ']' line with
      | some i =>
          if 1 ≤ i then String.mk ((rest.drop (i + 1)).dropWhile isSpaceChar)
          else s
      | none => s
  | _ => s

/-- One candidate occurrence of `\s*\([SE]\d+.*\)` starting exactly at
the head of `cs`: returns the remainder after the consumed occurrence. -/
def seMatchAt (cs : List Char) : Option (List Char) :=
  match cs.dropWhile isSpaceChar with
  | '(' :: c :: r3 =>
      if c = 'S' || c = 'E' then
        match (r3.takeWhile isDigitChar).isEmpty with
        | true => none
        | false =>
            match lastIdxOf ')'
                ((r3.dropWhile isDigitChar).takeWhile (fun ch => ch ≠ '\n')) with
            | some j => some ((r3.dropWhile isDigitChar).drop (j + 1))
            | none => none
      else none
  | _ => none

/-- Auxiliary: `(l.dropWhile p).length ≤ l.length`. -/
theorem lengthDropWhileLe {α : Type} (p : α → Bool) (l : List α) :
    (l.dropWhile p).length ≤ l.length := by
  induction l with
  | nil => simp [List.dropWhile]
  | cons c cs ih =>
      simp only [List.dropWhile]
      split
      · exact Nat.le_trans ih (by simp)
      · exact Nat.le_refl _

/-- A successful `seMatchAt` consumes at least one character (its
result is a strict — and, by construction from `dropWhile`/`drop`,
suffix — remainder of the input). -/
theorem seMatchAt_length_lt :
    ∀ cs rem, seMatchAt cs = some rem → rem.length < cs.length := by
  intro cs rem h
  unfold seMatchAt at h
  split at h
  next c r3 heq =>
    have hlen : ('(' :: c :: r3).length ≤ cs.length := by
      rw [← heq]; exact lengthDropWhileLe _ _
    simp only [List.length_cons] at hlen
    split at h
    · split at h
      · exact absurd h (by simp)
      · split at h
        next j hj =>
          have hrem : rem = (r3.dropWhile isDigitChar).drop (j + 1) :=
            (Option.some.injEq _ _ ▸ h).symm
          have h1 : ((r3.dropWhile isDigitChar).drop (j + 1)).length ≤
              (r3.dropWhile isDigitChar).length := by
            rw [List.length_drop]; omega
          have h2 : (r3.dropWhile isDigitChar).length ≤ r3.length :=
            lengthDropWhileLe _ _
          rw [hrem]; omega
        next => exact absurd h (by simp)
    · exact absurd h (by simp)
  next => exact absurd h (by simp)

/-- `re.sub(r'\s*\([SE]\d+.*\)', '', ·)` (source line 312): scan left to
right, removing each occurrence and continuing after it.  To keep the
recursion structural (so that proofs can evaluate it), the characters
of a found occurrence are skipped via the counter in the first
argument: every intermediate list `seMatchAt` builds is a suffix of its
input, so skipping `length - rem.length` characters lands exactly on
the remainder `rem`; by `seMatchAt_length_lt` that skip count is at
least 1, so the `- 1` below never truncates. -/
def seSubAux : Nat → List Char → List Char
  | _ + 1, [] => []
  | k + 1, _ :: rest => seSubAux k rest
  | 0, [] => []
  | 0, c :: rest =>
      match seMatchAt (c :: rest) with
      | some rem => seSubAux ((c :: rest).length - rem.length - 1) rest
      | none => c :: seSubAux 0 rest

/-- The whole substitution of source line 312. -/
def seSub (cs : List Char) : List Char := seSubAux 0 cs

/-- The full subtitle derivation applied to the short description
(source lines 311–312). -/
def subtitleText (shortdesc : String) : String :=
  String.mk (seSub (stripLeadingBracket shortdesc).data)

example : subtitleText "[Drama] Show Name (S2E5)" = "Show Name" := by decide
example : subtitleText "[Skip] Hello (S1E2/6)" = "Hello" := by decide
example : subtitleText "A (S1E1) B" = "A B" := by decide
example : subtitleText "[A] x [B] y" = "y" := by decide

/-- Python `str.replace('New: ', '')`: remove every occurrence, left to
right, without rescanning replaced text (source line 322).  Structural
recursion with a skip counter: on a match the five pattern characters
are dropped (the current one plus four skipped). -/
def replaceNewAux : Nat → List Char → List Char
  | _ + 1, [] => []
  | k + 1, _ :: rest => replaceNewAux k rest
  | 0, [] => []
  | 0, c :: rest =>
      if listStartsWith "New: ".data (c :: rest) then replaceNewAux 4 rest
      else c :: replaceNewAux 0 rest

/-- The whole replacement of source line 322. -/
def replaceNew (cs : List Char) : List Char := replaceNewAux 0 cs

example : String.mk (replaceNew "New: New: Show".data) = "Show" := by decide
example : String.mk (replaceNew "A New: B".data) = "A B" := by decide

/-- The per-event programme construction of `addEvents2XML` (source
lines 297–329), with the sanitizer (`unescape`) abstracted as a
parameter.  Start/stop/length are time-only attributes outside the text
processing the claims concern; the text-bearing children are built
exactly as in the source: `desc` falls back to the short description
when the long description is empty, `sub-title` exists only in the
long-description case and only when the stripped short description is
non-empty, the title loses every `'New: '` occurrence (adding the `new`
marker) when that substring occurs, and then the three annotators run
in source order. -/
def buildProgramme (sanitize : String → String) (ev : Event) : Programme :=
  let descText := if ev.longdesc = "" then sanitize ev.shortdesc
    else sanitize ev.longdesc
  let subtitle : Option String :=
    if ev.longdesc = "" then none
    else
      let st := subtitleText ev.shortdesc
      if st = "" then none else some (sanitize st)
  let t0 := sanitize ev.title
  let hasNew := listContains "New: ".data t0.data
  let titleText := if hasNew then String.mk (replaceNew t0.data) else t0
  let p0 : Programme :=
    { desc := descText, subtitle := subtitle, title := titleText,
      isNew := hasNew, categories := [], episodeNums := [], credits := none }
  addMovieCredits (addSeriesInfo2Programme (addCategories2Programme p0 ev) ev) ev

/-!
### `getOffset` (source lines 138–146)

The local−UTC offset in seconds is ambient process state; the model
takes it as the parameter.  Python's `round` rounds halves to even.
The rendered value is `int(hours * 100 + round(minutes / 900) * 900 / 60)`
formatted with `'{:+05}'`  — an arithmetic sum of a hundreds-encoded
hour and a signed minute count, not a digit-wise HH/MM composition.
-/

/-- Python `round(n / d)` for integers `n` and `d > 0`: nearest
integer, halves to even. -/
def roundHalfEven (n d : Int) : Int :=
  let fl := Int.fdiv n d
  let r := n - fl * d
  if 2 * r < d then fl
  else if d < 2 * r then fl + 1
  else if fl % 2 = 0 then fl else fl + 1

/-- Zero-pad a digit string on the left to width `w`. -/
def padZeros (w : Nat) (s : String) : String :=
  if w ≤ s.length then s else String.mk (List.replicate (w - s.length) '0') ++ s

/-- Python `'{:+05}'.format(v)`: explicit sign plus the absolute value
zero-padded so the signed result has at least five characters. -/
def formatPlus05 (v : Int) : String :=
  (if v < 0 then "-" else "+") ++ padZeros 4 (toString v.natAbs)

/-- `getOffset` (source lines 138–146) as a function of the local−UTC
offset in seconds. -/
def getOffset (offset : Int) : String :=
  let hours := roundHalfEven offset 3600
  let minutes := offset - hours * 3600
  formatPlus05 (hours * 100 + roundHalfEven minutes 900 * 15)

example : getOffset 3600 = "+0100" := by decide
example : getOffset 0 = "+0000" := by decide
example : getOffset 16200 = "+0430" := by decide
example : getOffset 19800 = "+0570" := by decide
example : getOffset (-19800) = "-0570" := by decide

/-- The timezone string the claim describes: the offset with its minute
component rounded to the nearest 15 minutes, rendered digit-wise as a
signed `HHMM` string.  This definition follows the claim's words, for
comparison with `getOffset`; at the inputs used below the rounding is
exact (multiples of 900 seconds), so no tie-breaking convention is
involved. -/
def specTzRender (offset : Int) : String :=
  let total := roundHalfEven offset 900 * 15
  let sign := if total < 0 then "-" else "+"
  let a := total.natAbs
  sign ++ padZeros 2 (toString (a / 60)) ++ padZeros 2 (toString (a % 60))

example : specTzRender 19800 = "+0530" := by decide
example : specTzRender (-19800) = "-0530" := by decide
example : specTzRender 3600 = "+0100" := by decide

/-!
### `addChannels2XML` (source lines 149–167)

Services with a falsy position (`None` in the model: `none`; Python's
`0` is falsy too) are skipped.  For an emitted channel the source reads
`epg[service['program']]` unconditionally — a missing key raises
`KeyError`, aborting the run; the model returns `Except.error` carrying
the missing key.
-/

structure Service where
  pos : Option Int
  servicename : String
  program : String
deriving DecidableEq

structure Channel where
  id : String
  displayNames : List String
  icon : Option String
deriving DecidableEq

/-- Python truthiness of the `pos` field (`None` and `0` are falsy). -/
def posTruthy : Option Int → Bool
  | none => false
  | some p => !(p = 0)

/-- `addChannels2XML` (source lines 149–167) over the flattened service
list, with the sanitizer abstracted.  A channel gets the sanitized
service name and the decimal position as display names, and an icon from
the first EPG event of its programme reference when one exists. -/
def addChannels2XML (sanitize : String → String) (services : List Service)
    (epg : List (String × List Event)) (apiRoot : String) :
    Except String (List Channel) :=
  match services with
  | [] => Except.ok []
  | s :: rest =>
      if posTruthy s.pos then
        match s.pos with
        | none => Except.error "unreachable"
        | some p =>
            match List.lookup s.program epg with
            | none => Except.error s.program
            | some evs =>
                match addChannels2XML sanitize rest epg apiRoot with
                | Except.ok cs =>
                    Except.ok (Channel.mk s.program
                      [sanitize s.servicename, toString p]
                      (match evs with
                       | [] => none
                       | e :: _ => some (apiRoot ++ e.picon)) :: cs)
                | Except.error e => Except.error e
      else addChannels2XML sanitize rest epg apiRoot

/-!
### Helper lemmas

The three annotators only touch `categories`, `episodeNums` and
`credits`; the text fields built by `addEvents2XML` (`desc`,
`sub-title`, `title`, `new`) pass through unchanged.
-/

theorem addCategories_shape (p : Programme) (ev : Event) :
    ∃ a b c, addCategories2Programme p ev =
      { p with categories := a, episodeNums := b, credits := c } :=
  ⟨p.categories ++ categoriesOf ev.shortdesc, p.episodeNums, p.credits, rfl⟩

theorem addOriginalAirDate_shape (p : Programme)
    (oad : Option (String × String × String)) :
    ∃ a b c, addOriginalAirDate p oad =
      { p with categories := a, episodeNums := b, credits := c } := by
  cases oad with
  | none => exact ⟨p.categories, p.episodeNums, p.credits, rfl⟩
  | some r =>
      obtain ⟨d, m, y⟩ := r
      exact ⟨p.categories,
        p.episodeNums ++ [("original-air-date", y ++ "-" ++ m ++ "-" ++ d)],
        p.credits, rfl⟩

theorem addSeriesInfo_shape (p : Programme) (ev : Event) :
    ∃ a b c, addSeriesInfo2Programme p ev =
      { p with categories := a, episodeNums := b, credits := c } := by
  cases h : p.categories.head? with
  | none =>
      simp only [addSeriesInfo2Programme, h]
      split
      · obtain ⟨a, b, c, hh⟩ := addOriginalAirDate_shape
          { p with categories := p.categories ++ ["Series"],
                   episodeNums := p.episodeNums ++ [("xmltv_ns", (parseSEP ev.shortdesc).2)] }
          (airDateSearch ev.shortdesc.data)
        exact ⟨a, b, c, hh.trans rfl⟩
      · obtain ⟨a, b, c, hh⟩ := addOriginalAirDate_shape p (airDateSearch ev.shortdesc.data)
        exact ⟨a, b, c, hh.trans rfl⟩
  | some cat =>
      simp only [addSeriesInfo2Programme, h]
      split
      · exact ⟨p.categories, p.episodeNums, p.credits, rfl⟩
      · split
        · obtain ⟨a, b, c, hh⟩ := addOriginalAirDate_shape
            { p with episodeNums := p.episodeNums ++ [("xmltv_ns", (parseSEP ev.shortdesc).2)] }
            (airDateSearch ev.shortdesc.data)
          exact ⟨a, b, c, hh.trans rfl⟩
        · obtain ⟨a, b, c, hh⟩ := addOriginalAirDate_shape p (airDateSearch ev.shortdesc.data)
          exact ⟨a, b, c, hh.trans rfl⟩

theorem addMovieCredits_shape (p : Programme) (ev : Event) :
    ∃ a b c, addMovieCredits p ev =
      { p with categories := a, episodeNums := b, credits := c } := by
  cases h : p.categories.head? with
  | none =>
      simp only [addMovieCredits, h]
      exact ⟨p.categories, p.episodeNums, p.credits, rfl⟩
  | some cat =>
      simp only [addMovieCredits, h]
      split
      · split
        · exact ⟨p.categories, p.episodeNums, _, rfl⟩
        · exact ⟨p.categories, p.episodeNums, p.credits, rfl⟩
      · exact ⟨p.categories, p.episodeNums, p.credits, rfl⟩

theorem pipeline_shape (p : Programme) (ev : Event) :
    ∃ a b c, addMovieCredits (addSeriesInfo2Programme (addCategories2Programme p ev) ev) ev =
      { p with categories := a, episodeNums := b, credits := c } := by
  obtain ⟨a1, b1, c1, h1⟩ := addCategories_shape p ev
  obtain ⟨a2, b2, c2, h2⟩ := addSeriesInfo_shape (addCategories2Programme p ev) ev
  obtain ⟨a3, b3, c3, h3⟩ :=
    addMovieCredits_shape (addSeriesInfo2Programme (addCategories2Programme p ev) ev) ev
  refine ⟨a3, b3, c3, h3.trans ?_⟩
  rw [h2, h1]

/-!
### Claim theorems
-/

/-- C2: `parseSEP` always returns the three-field dotted shape
`season.episode.part`; every number captured by the primary or fallback
pattern is decremented by one and every absent field renders as the
empty string; `parseSEP "Ep3/6" = (true, ".2.5")`,
`parseSEP "3/6." = (true, ".2.5")`, and a text matching neither pattern
gives `(false, "..")`. -/
theorem C2_parseSEP_shape :
    parseSEP "Ep3/6" = (true, ".2.5") ∧
    parseSEP "3/6." = (true, ".2.5") ∧
    parseSEP "no numbers here" = (false, "..") ∧
    (∀ text : String,
      parseSEP text =
        (match sepCaptures text with
         | some (s, e, p) =>
             (true, renderDec s ++ "." ++ renderDec (some e) ++ "." ++ renderDec p)
         | none => (false, "" ++ "." ++ "" ++ "." ++ ""))) ∧
    (∀ text : String, ∃ s e p : String,
      (parseSEP text).2 = s ++ "." ++ e ++ "." ++ p) := by
  refine ⟨by decide, by decide, by decide, ?_, ?_⟩
  · intro text
    unfold parseSEP sepCaptures
    cases h1 : c4Search text.data with
    | some r => obtain ⟨s, e, p⟩ := r; rfl
    | none =>
        cases h2 : bbcMatch text.data with
        | some r => obtain ⟨e, p⟩ := r; rfl
        | none => rfl
  · intro text
    unfold parseSEP
    cases h1 : c4Search text.data with
    | some r =>
        obtain ⟨s, e, p⟩ := r
        exact ⟨renderDec s, renderDec (some e), renderDec p, rfl⟩
    | none =>
        cases h2 : bbcMatch text.data with
        | some r =>
            obtain ⟨e, p⟩ := r
            exact ⟨"", renderDec (some e), renderDec (some p), rfl⟩
        | none => exact ⟨"", "", "", rfl⟩

/-- C5: category extraction emits exactly the non-empty captures of the
leading-bracket pattern, in capture order, giving between zero and two
entries; `"[Drama.Crime] rest of text"` yields `["Drama", "Crime"]` and
a description with no leading bracket yields `[]`. -/
theorem C5_categories :
    (∀ (p : Programme) (ev : Event),
      (addCategories2Programme p ev).categories =
        p.categories ++ categoriesOf ev.shortdesc) ∧
    (∀ s : String, (categoriesOf s).length ≤ 2) ∧
    (∀ s c, c ∈ categoriesOf s → c ≠ "") ∧
    categoriesOf "[Drama.Crime] rest of text" = ["Drama", "Crime"] ∧
    categoriesOf "no brackets" = [] := by
  refine ⟨fun p ev => rfl, ?_, ?_, by decide, by decide⟩
  · intro s
    rcases h : catMatch s.data with _ | ⟨c1, _ | c2⟩
    · simp [categoriesOf, h]
    · simp only [categoriesOf, h]
      split <;> simp
    · simp only [categoriesOf, h]
      split <;> split <;> simp
  · intro s c hc
    rcases h : catMatch s.data with _ | ⟨c1, _ | c2⟩
    · simp [categoriesOf, h] at hc
    · simp only [categoriesOf, h] at hc
      split at hc
      · simp at hc
      · simp at hc; subst hc; assumption
    · simp only [categoriesOf, h] at hc
      split at hc <;> split at hc <;> simp at hc <;>
        first
        | (subst hc; assumption)
        | (rcases hc with rfl | rfl <;> assumption)

/-- C5 witness: the non-emptiness clause of `C5_categories` applied at a
concrete extracted category. -/
theorem C5_categories_witness : ("Drama" : String) ≠ "" :=
  C5_categories.2.2.1 "[Drama.Crime] rest of text" "Drama" (by decide)

/-- C1 counterexample: a programme that carries the category `"Movie"`
in its *second* position (first category `"Drama"`, reachable from a
short description such as `"[Drama.Movie] Ep3/6"`) *does* receive an
`xmltv_ns` episode-num when the episode pattern matches, because the
source inspects only `programme.find('category')` — the first category
child.  This refutes the claim's "in any category position". -/
theorem C1_counterexample :
    "Movie" ∈ (Programme.mk "" none "" false ["Drama", "Movie"] [] none).categories ∧
    categoriesOf "[Drama.Movie] Ep3/6" = ["Drama", "Movie"] ∧
    (addSeriesInfo2Programme (Programme.mk "" none "" false ["Drama", "Movie"] [] none)
        (Event.mk "t" "Ep3/6" "" "")).episodeNums = [("xmltv_ns", ".2.5")] := by
  exact ⟨by decide, by decide, by decide⟩

/-- C1 (amended): for every programme whose *first* category is
`"Movie"` or `"News"`, `addSeriesInfo2Programme` returns the programme
unchanged — no episode-num of either system is added, whatever the
short description contains. -/
theorem C1_amended (p : Programme) (ev : Event) (c : String)
    (h1 : p.categories.head? = some c) (h2 : c = "Movie" ∨ c = "News") :
    addSeriesInfo2Programme p ev = p := by
  rcases h2 with rfl | rfl <;> simp [addSeriesInfo2Programme, h1]

/-- C1 witness: `C1_amended` applied at a concrete Movie-first
programme whose short description matches both the episode and the
air-date pattern. -/
theorem C1_amended_witness :
    addSeriesInfo2Programme (Programme.mk "d" none "t" false ["Movie"] [] none)
        (Event.mk "t" "Ep3/6 21/12/2019" "" "") =
      Programme.mk "d" none "t" false ["Movie"] [] none :=
  C1_amended (Programme.mk "d" none "t" false ["Movie"] [] none)
    (Event.mk "t" "Ep3/6 21/12/2019" "" "") "Movie" rfl (Or.inl rfl)

/-- C3 (code bug): `addMovieCredits` guards with
`existing_category.text in ('Movie')`, where `('Movie')` is the plain
string — a substring test, not the intended one-element tuple.  A
programme whose first category is `"Mov"` (≠ `"Movie"`, reachable from
short description `"[Mov] x"`) therefore receives credits, contradicting
the claim that credits require the category to be exactly `"Movie"`. -/
theorem C3_credits_substring_slip :
    (addMovieCredits (Programme.mk "" none "" false ["Mov"] [] none)
        (Event.mk "t" "[Mov] x" "Plot\nJane Doe\nActor A\nActor B\n" "")).credits =
      some ("Jane Doe", ["Actor A", "Actor B"]) ∧
    ("Mov" : String) ≠ "Movie" ∧
    categoriesOf "[Mov] x" = ["Mov"] := by
  exact ⟨by decide, by decide, by decide⟩

/-- C4 counterexample: with first category `"Movie"` and long
description `"Plot\nDir\nAB"` (no trailing line break), the source's
`cast[2][:-1]` chops the final character of the cast blob
unconditionally, so the single actor is emitted as `"A"`, not intact as
the claim's newline-separated line `"AB"`. -/
theorem C4_counterexample :
    (addMovieCredits (Programme.mk "" none "" false ["Movie"] [] none)
        (Event.mk "t" "" "Plot\nDir\nAB" "")).credits = some ("Dir", ["A"]) ∧
    (splitLines "AB".data).map String.mk = ["AB"] ∧
    (["A"] : List String) ≠ ["AB"] := by
  exact ⟨by decide, by decide, by decide⟩

/-- C4 (amended): for a programme whose first category is `"Movie"`:
if the long description splits (on at most two newlines) into fewer
than three parts, the programme is returned unchanged; with three parts
exactly one director credit is emitted from the second part, and the
actors are the newline-separated lines of the third part *after its
final character is dropped unconditionally* — which removes the
trailing blank entry when the third part ends in a newline and
otherwise truncates the last actor name by one character. -/
theorem C4_amended (p : Programme) (ev : Event)
    (h : p.categories.head? = some "Movie") :
    ((pySplit2 ev.longdesc.data).length < 3 → addMovieCredits p ev = p) ∧
    (∀ pre dir blob, pySplit2 ev.longdesc.data = [pre, dir, blob] →
      (addMovieCredits p ev).credits =
        some (String.mk dir, (splitLines blob.dropLast).map String.mk)) := by
  constructor
  · intro hlen
    simp only [addMovieCredits, h, if_pos (show listContains "Movie".data "Movie".data = true by decide)]
    split
    next pre dir blob heq => rw [heq] at hlen; simp at hlen
    next => rfl
  · intro pre dir blob hsplit
    simp only [addMovieCredits, h, if_pos (show listContains "Movie".data "Movie".data = true by decide), hsplit]

/-- C4 witness: `C4_amended` applied at a Movie programme with a
newline-terminated cast blob, where the drop of the final character
removes exactly the trailing blank line. -/
theorem C4_amended_witness :
    (addMovieCredits (Programme.mk "" none "" false ["Movie"] [] none)
        (Event.mk "t" "" "Plot\nJane\nA\nB\n" "")).credits = some ("Jane", ["A", "B"]) := by
  have h := (C4_amended (Programme.mk "" none "" false ["Movie"] [] none)
      (Event.mk "t" "" "Plot\nJane\nA\nB\n" "") rfl).2
      "Plot".data "Jane".data "A\nB\n".data (by decide)
  exact h.trans (by decide)

/-- When the pattern does not occur, Python's `replace` returns the
text unchanged. -/
theorem replaceNewAux_eq_self :
    ∀ l : List Char, listContains "New: ".data l = false → replaceNewAux 0 l = l := by
  intro l
  induction l with
  | nil => intro h; rfl
  | cons c rest ih =>
      intro h
      simp only [listContains, Bool.or_eq_false_iff] at h
      obtain ⟨h1, h2⟩ := h
      simp only [replaceNewAux, h1, Bool.false_eq_true, if_false]
      rw [ih h2]

/-- The text-bearing fields of a built programme, before/after the
annotator pipeline (which only touches categories, episode numbers and
credits). -/
theorem buildProgramme_textFields (san : String → String) (ev : Event) :
    (buildProgramme san ev).desc =
      (if ev.longdesc = "" then san ev.shortdesc else san ev.longdesc) ∧
    (buildProgramme san ev).subtitle =
      (if ev.longdesc = "" then none
       else if subtitleText ev.shortdesc = "" then none
       else some (san (subtitleText ev.shortdesc))) ∧
    (buildProgramme san ev).title =
      (if listContains "New: ".data (san ev.title).data
       then String.mk (replaceNew (san ev.title).data) else san ev.title) ∧
    (buildProgramme san ev).isNew = listContains "New: ".data (san ev.title).data := by
  obtain ⟨a, b, c, hp⟩ := pipeline_shape
    (Programme.mk
      (if ev.longdesc = "" then san ev.shortdesc else san ev.longdesc)
      (if ev.longdesc = "" then none
       else if subtitleText ev.shortdesc = "" then none
       else some (san (subtitleText ev.shortdesc)))
      (if listContains "New: ".data (san ev.title).data
       then String.mk (replaceNew (san ev.title).data) else san ev.title)
      (listContains "New: ".data (san ev.title).data)
      [] [] none) ev
  refine ⟨?_, ?_, ?_, ?_⟩ <;>
    · show _ = _
      rw [show buildProgramme san ev =
        { Programme.mk
            (if ev.longdesc = "" then san ev.shortdesc else san ev.longdesc)
            (if ev.longdesc = "" then none
             else if subtitleText ev.shortdesc = "" then none
             else some (san (subtitleText ev.shortdesc)))
            (if listContains "New: ".data (san ev.title).data
             then String.mk (replaceNew (san ev.title).data) else san ev.title)
            (listContains "New: ".data (san ev.title).data)
            [] [] none with categories := a, episodeNums := b, credits := c } from hp]

/-- C6 counterexample: for short description `"A (S1E1) B"` (non-empty
long description), the emitted sub-title is `"A B"`: the source's second
substitution removes the `(S1E1)` parenthetical even though it is not
trailing.  `"A B"` is not even a contiguous substring of the short
description, so no reading of "a leading bracketed prefix and a trailing
parenthetical stripped" (which always leaves a contiguous infix) can
produce it. -/
theorem C6_counterexample :
    (buildProgramme id (Event.mk "T" "A (S1E1) B" "Long" "")).subtitle = some "A B" ∧
    listContains "A B".data "A (S1E1) B".data = false := by
  exact ⟨by decide, by decide⟩

/-- C6 (amended): `desc` is the sanitized long description when that is
non-empty, else the sanitized short description; a sub-title exists only
in the long-description case, its text obtained from the short
description by removing the leading bracketed segment (through the last
`]` on its first line) and every whitespace-preceded `(S<digits>…)` /
`(E<digits>…)` parenthetical wherever it occurs (each extending to the
last `)` on its line); the sub-title is omitted when that result is
empty. -/
theorem C6_amended :
    (∀ (san : String → String) (ev : Event), ev.longdesc = "" →
      (buildProgramme san ev).desc = san ev.shortdesc ∧
      (buildProgramme san ev).subtitle = none) ∧
    (∀ (san : String → String) (ev : Event), ev.longdesc ≠ "" →
      (buildProgramme san ev).desc = san ev.longdesc ∧
      (buildProgramme san ev).subtitle =
        (if subtitleText ev.shortdesc = "" then none
         else some (san (subtitleText ev.shortdesc)))) ∧
    subtitleText "A (S1E1) B" = "A B" ∧
    subtitleText "[Drama] Show Name (S2E5)" = "Show Name" ∧
    subtitleText "[Drama] (S2E5)" = "" := by
  refine ⟨?_, ?_, by decide, by decide, by decide⟩
  · intro san ev h
    obtain ⟨hd, hs, _, _⟩ := buildProgramme_textFields san ev
    exact ⟨hd.trans (if_pos h), hs.trans (if_pos h)⟩
  · intro san ev h
    obtain ⟨hd, hs, _, _⟩ := buildProgramme_textFields san ev
    exact ⟨hd.trans (if_neg h), hs.trans (if_neg h)⟩

/-- C6 witness: the long-description clause of `C6_amended` applied at a
concrete event. -/
theorem C6_amended_witness :
    (buildProgramme id (Event.mk "T" "[Drama] Show Name (S2E5)" "Long" "")).desc = "Long" ∧
    (buildProgramme id (Event.mk "T" "[Drama] Show Name (S2E5)" "Long" "")).subtitle =
      (if subtitleText "[Drama] Show Name (S2E5)" = "" then none
       else some (id (subtitleText "[Drama] Show Name (S2E5)"))) :=
  C6_amended.2.1 id (Event.mk "T" "[Drama] Show Name (S2E5)" "Long" "") (by decide)

/-- C8 counterexample: for sanitized title `"New: New: Show"` the source
removes *every* occurrence of `"New: "` (Python `replace` with no
count), emitting title `"Show"`, whereas stripping the literal prefix
once would leave `"New: Show"`. -/
theorem C8_counterexample :
    (buildProgramme id (Event.mk "New: New: Show" "sd" "" "")).title = "Show" ∧
    (buildProgramme id (Event.mk "New: New: Show" "sd" "" "")).isNew = true ∧
    "New: " ++ "New: Show" = "New: New: Show" ∧
    ("Show" : String) ≠ "New: Show" := by
  exact ⟨by decide, by decide, by decide, by decide⟩

/-- C8 (amended): the `new` marker is emitted exactly when `"New: "`
occurs anywhere in the sanitized title, and the emitted title is the
sanitized title with *every* occurrence of `"New: "` removed (not just a
leading one); titles without the substring pass through unchanged. -/
theorem C8_amended :
    (∀ (san : String → String) (ev : Event),
      (buildProgramme san ev).isNew = listContains "New: ".data (san ev.title).data ∧
      (buildProgramme san ev).title = String.mk (replaceNew (san ev.title).data)) ∧
    String.mk (replaceNew "New: New: Show".data) = "Show" ∧
    String.mk (replaceNew "A New: B".data) = "A B" ∧
    listContains "New: ".data "A New: B".data = true := by
  refine ⟨?_, by decide, by decide, by decide⟩
  intro san ev
  obtain ⟨_, _, ht, hn⟩ := buildProgramme_textFields san ev
  refine ⟨hn, ht.trans ?_⟩
  by_cases hc : listContains "New: ".data (san ev.title).data = true
  · rw [if_pos hc]
  · rw [if_neg hc]
    have hc2 : listContains "New: ".data (san ev.title).data = false := by
      simpa using hc
    rw [replaceNew, replaceNewAux_eq_self _ hc2]

theorem addOriginalAirDate_categories (p : Programme)
    (oad : Option (String × String × String)) :
    (addOriginalAirDate p oad).categories = p.categories := by
  cases oad with
  | none => rfl
  | some r => obtain ⟨d, m, y⟩ := r; rfl

theorem addOriginalAirDate_mem (p : Programme)
    (oad : Option (String × String × String)) (x : String × String)
    (hx : x ∈ p.episodeNums) : x ∈ (addOriginalAirDate p oad).episodeNums := by
  cases oad with
  | none => exact hx
  | some r => obtain ⟨d, m, y⟩ := r; exact List.mem_append_left _ hx

/-- C7: when the episode parser matches the short description and the
first category (if any) is neither `"Movie"` nor `"News"`, an
`episode-num` with system `xmltv_ns` carrying the zero-indexed value is
attached; a programme with no category at all additionally gains
category `"Series"`, while a programme with a prior category keeps its
category list unchanged. -/
theorem C7_series_episode_num (p : Programme) (ev : Event)
    (hcat : p.categories.head? = none ∨
      ∃ c, p.categories.head? = some c ∧ c ≠ "Movie" ∧ c ≠ "News")
    (hmatch : (parseSEP ev.shortdesc).1 = true) :
    ("xmltv_ns", (parseSEP ev.shortdesc).2) ∈ (addSeriesInfo2Programme p ev).episodeNums ∧
    (p.categories = [] → (addSeriesInfo2Programme p ev).categories = ["Series"]) ∧
    (p.categories ≠ [] → (addSeriesInfo2Programme p ev).categories = p.categories) := by
  rcases hcat with hnone | ⟨c, hc, hM, hN⟩
  · have hcats : p.categories = [] := by simpa using hnone
    simp only [addSeriesInfo2Programme, hnone, hmatch, if_true]
    refine ⟨addOriginalAirDate_mem _ _ _ (by simp), ?_, ?_⟩
    · intro h0
      rw [addOriginalAirDate_categories]
      simp [hcats]
    · intro hne
      exact absurd hcats hne
  · have hcond : (c = "Movie" || c = "News") = false := by simp [hM, hN]
    simp only [addSeriesInfo2Programme, hc, hcond, Bool.false_eq_true, if_false,
      hmatch, if_true]
    refine ⟨addOriginalAirDate_mem _ _ _ (by simp), ?_, ?_⟩
    · intro h0
      rw [h0] at hc
      simp at hc
    · intro _
      rw [addOriginalAirDate_categories]

/-- C7 witness: `C7_series_episode_num` applied to a programme with the
prior category `"Drama"` and short description `"Ep3/6"`. -/
theorem C7_witness :
    ("xmltv_ns", (parseSEP "Ep3/6").2) ∈
      (addSeriesInfo2Programme (Programme.mk "" none "" false ["Drama"] [] none)
        (Event.mk "t" "Ep3/6" "" "")).episodeNums ∧
    (addSeriesInfo2Programme (Programme.mk "" none "" false ["Drama"] [] none)
        (Event.mk "t" "Ep3/6" "" "")).categories = ["Drama"] := by
  have h := C7_series_episode_num (Programme.mk "" none "" false ["Drama"] [] none)
      (Event.mk "t" "Ep3/6" "" "") (Or.inr ⟨"Drama", rfl, by decide, by decide⟩)
      (by decide)
  exact ⟨h.1, h.2.2 (by decide)⟩

/-- C9 (code bug): the source renders the offset as the arithmetic sum
`hours*100 + roundedMinutes`, not a digit-wise HHMM composition.  For
UTC+05:30 (offset 19800 s) Python's half-to-even `round(5.5) = 6` gives
`6*100 - 30 = 570`, rendered `"+0570"`, where the claim (and the spec's
own `-0530` example) requires `"+0530"`; the whole-hour case `+0100`
agrees. -/
theorem C9_offset_rendering :
    getOffset 19800 = "+0570" ∧ specTzRender 19800 = "+0530" ∧
    getOffset 19800 ≠ specTzRender 19800 ∧
    getOffset (-19800) = "-0570" ∧ specTzRender (-19800) = "-0530" ∧
    getOffset 3600 = "+0100" ∧ specTzRender 3600 = "+0100" := by
  exact ⟨by decide, by decide, by decide, by decide, by decide, by decide, by decide⟩

/-- C10: if every service with a non-null position has an entry in the
EPG mapping (an empty event list suffices), `addChannels2XML` succeeds;
and for a positioned service whose programme reference is absent it
fails with a key-lookup error carrying the missing key, rather than
emitting the channel without an icon. -/
theorem C10_channels_precondition :
    (∀ (san : String → String) (services : List Service)
        (epg : List (String × List Event)) (root : String),
      (∀ s ∈ services, s.pos ≠ none → (List.lookup s.program epg).isSome = true) →
      ∃ cs, addChannels2XML san services epg root = Except.ok cs) ∧
    addChannels2XML id [Service.mk (some 1) "Ch" "p1"] [] "r" = Except.error "p1" := by
  constructor
  · intro san services epg root hpre
    induction services with
    | nil => exact ⟨[], rfl⟩
    | cons s rest ih =>
        obtain ⟨cs, hcs⟩ := ih (fun x hx => hpre x (List.mem_cons_of_mem _ hx))
        by_cases hp : posTruthy s.pos = true
        · cases hsp : s.pos with
          | none => rw [hsp] at hp; simp [posTruthy] at hp
          | some p =>
              rw [hsp] at hp
              have hlook := hpre s (List.mem_cons_self _ _) (by rw [hsp]; simp)
              obtain ⟨evs, hevs⟩ := Option.isSome_iff_exists.mp hlook
              cases evs with
              | nil =>
                  refine ⟨Channel.mk s.program [san s.servicename, toString p] none :: cs, ?_⟩
                  simp only [addChannels2XML, hsp, hp, if_true, hevs, hcs]
              | cons e tail =>
                  refine ⟨Channel.mk s.program [san s.servicename, toString p]
                      (some (root ++ e.picon)) :: cs, ?_⟩
                  simp only [addChannels2XML, hsp, hp, if_true, hevs, hcs]
        · have hp2 : posTruthy s.pos = false := by simpa using hp
          refine ⟨cs, ?_⟩
          simp only [addChannels2XML, hp2, Bool.false_eq_true, if_false, hcs]
  · rfl

/-- C10 witness: the success clause of `C10_channels_precondition`
applied to a positioned service whose programme reference has an (empty)
EPG entry. -/
theorem C10_witness :
    ∃ cs, addChannels2XML id [Service.mk (some 1) "Ch" "p1"]
        [("p1", [])] "r" = Except.ok cs :=
  C10_channels_precondition.1 id [Service.mk (some 1) "Ch" "p1"]
    [("p1", [])] "r" (by decide)

end Owi2plex
